import Mathlib

/-!
# muxtagconfig: value resolution for `mux.url` tagged struct fields

A shallow embedding of `muxtagconfig.go` (package `muxtagconfig`) and a
verification of the resolution policy of `MuxURLGetter.Get`.

The Go standard library and `gorilla/mux` types the program reads are
represented by the data the program observes through them:

* a Go `map[string]T` is a finite list of entries read by first match, or the
  nil map;
* `url.Values` is `map[string][]string`;
* `*url.URL` is nil or carries the key/value pairs `url.ParseQuery` extracts
  from its `RawQuery`;
* `reflect.StructTag` is the list of `key:"value"` pairs of the tag;
* `mux.Vars(req)` is the route-variable map the router attached to the
  request, nil when there is none.

A nil pointer dereference is a run-time panic in Go; `Get` therefore returns
`Except Panic String`.

The populator `tagconfig.Process` belongs to another package. The wrapper
`ParseMuxRequestToStruct` takes it as a parameter; which fields it calls `Get`
for and what it assigns to a `[]string` field are modelled from the
specification. For the frame property
`Get` is given a second time in state-passing form (`MuxURLGetter.GetM`) and
shown to agree with the functional form.
-/

namespace Muxtagconfig

/-! ## Data model -/

/-- Run-time faults of the Go program. -/
inductive Panic where
  | nilPointerDereference : Panic
  deriving DecidableEq, Repr

/-- Go `map[string]β`: the nil map, or a finite set of entries. Entries are read
by first match on the key. -/
inductive GoMap (β : Type) where
  | nil : GoMap β
  | entries : List (String × β) → GoMap β
  deriving DecidableEq, Repr

/-- Go map indexing `m[key]`: the stored element, or the zero value of the
element type when the key has no entry or the map is nil. -/
def GoMap.index {β : Type} (zero : β) (m : GoMap β) (key : String) : β :=
  match m with
  | GoMap.nil => zero
  | GoMap.entries es => (es.lookup key).getD zero

/-- Go `url.Values`, a `map[string][]string`. -/
abbrev Values := GoMap (List String)

/-- Go `url.Values.Get`: the first value associated with the key, or the empty
string when there are none (`vs := v[key]; if len(vs) == 0 { return "" }; return vs[0]`). -/
def Values.Get (v : Values) (key : String) : String :=
  match GoMap.index [] v key with
  | [] => ""
  | x :: _ => x

/-- Go `url.URL`, reduced to the query part: the key/value pairs that
`url.ParseQuery` extracts from `RawQuery`. -/
structure URL where
  query : List (String × List String)
  deriving DecidableEq, Repr

/-- Go `(*url.URL).Query`: dereferences the receiver and returns a freshly
allocated, non-nil `url.Values`. On a nil receiver the dereference panics. -/
def URL.Query (u : Option URL) : Except Panic Values :=
  match u with
  | none => Except.error Panic.nilPointerDereference
  | some url => Except.ok (GoMap.entries url.query)

/-- Go `http.Request`, reduced to the fields `Get` reads, together with the
route variables `gorilla/mux` keeps for the request. -/
structure Request where
  URL : Option URL
  PostForm : Values
  Form : Values
  routeVars : GoMap String
  deriving DecidableEq, Repr

/-- Go `reflect.StructTag`: the `key:"value"` pairs of a struct tag. -/
abbrev StructTag := List (String × String)

/-- Go `reflect.StructTag.Get`: the value associated with the key in the tag, or
the empty string when the tag has no such key. -/
def StructTag.Get (tag : StructTag) (key : String) : String :=
  (tag.lookup key).getD ""

/-- Go `reflect.StructField`, reduced to its tag. -/
structure StructField where
  Tag : StructTag
  deriving DecidableEq, Repr

/-- The function `mux.Vars` of `gorilla/mux`: the route variables of the request
(nil when the request carries none). -/
def mux.Vars (req : Request) : GoMap String :=
  req.routeVars

/-- The type `MuxURLGetter`: a struct embedding `*http.Request`. -/
structure MuxURLGetter where
  Request : Option Request
  deriving DecidableEq, Repr

/-! ## Operations -/

/-- The method `TagName`. -/
def MuxURLGetter.TagName (_mg : MuxURLGetter) : String :=
  "mux.url"

/-- The function `tryURLValues`: the single-value lookup and whether it is non-empty. -/
def tryURLValues (key : String) (vs : Values) : String × Bool :=
  let v := Values.Get vs key
  let present := v != ""
  (v, present)

/-- The method `Get`. -/
def MuxURLGetter.Get (mg : MuxURLGetter) (key : String) (f : StructField) :
    Except Panic String := do
  match mg.Request with
  | none => return ""
  | some req =>
    if StructTag.Get f.Tag "mux.param" != "" then
      -- QueryParams
      let q ← URL.Query req.URL
      let (v, ok) := tryURLValues key q
      if ok then
        return v
    if StructTag.Get f.Tag "mux.form" != "" then
      -- PostForm Values
      let (v, ok) := tryURLValues key req.PostForm
      if ok then
        return v
      -- Form Values
      let (v, ok) := tryURLValues key req.Form
      if ok then
        return v
    if StructTag.Get f.Tag "mux.path" != "" then
      let vs := mux.Vars req
      return GoMap.index "" vs key
    return ""

/-! ## Auxiliary definitions

`pathResult` and `formResult` name the two trailing blocks of `Get`;
`declaredLookups` and `firstNonEmpty` follow the wording of the specification
("the first non-empty match among the declared sources, in a fixed order") and
are compared with `Get` below. -/

/-- The path block of `Get` (source lines 60-65). -/
def pathResult (req : Request) (key : String) (f : StructField) : String :=
  if StructTag.Get f.Tag "mux.path" = "" then "" else GoMap.index "" (mux.Vars req) key

/-- The form block of `Get` followed by the path block (source lines 45-65). -/
def formResult (req : Request) (key : String) (f : StructField) : String :=
  if StructTag.Get f.Tag "mux.form" = "" then pathResult req key f
  else if Values.Get req.PostForm key = "" then
    (if Values.Get req.Form key = "" then pathResult req key f else Values.Get req.Form key)
  else Values.Get req.PostForm key

/-- The lookups of `key` in the sources the declaration names, in the order of the
specification: query store (when `mux.param` is set), submitted-body `PostForm`
then general `Form` (when `mux.form` is set), path variables (when `mux.path` is
set). A request without a URL has no query store and contributes no query lookup. -/
def declaredLookups (req : Request) (key : String) (f : StructField) : List String :=
  (if StructTag.Get f.Tag "mux.param" = "" then []
   else match req.URL with
    | none => []
    | some u => [Values.Get (GoMap.entries u.query) key]) ++
  (if StructTag.Get f.Tag "mux.form" = "" then []
   else [Values.Get req.PostForm key, Values.Get req.Form key]) ++
  (if StructTag.Get f.Tag "mux.path" = "" then []
   else [GoMap.index "" (mux.Vars req) key])

/-- The first non-empty string of a list, or the empty string when there is none. -/
def firstNonEmpty : List String → String
  | [] => ""
  | x :: xs => if x = "" then firstNonEmpty xs else x

/-! ## State-passing form of `Get`

For the frame property the getter, with the request it embeds and the four
stores reachable from it, is the state a call runs in. A computation returns
its outcome together with the state it leaves behind. -/

/-- Computations of the program over the getter: a computation maps the state it
starts in to its outcome (a value or a panic) and the state it leaves behind. -/
def Prog (α : Type) : Type := MuxURLGetter → Except Panic α × MuxURLGetter

/-- Sequencing of computations: the second runs in the state the first leaves
behind; a panic ends the sequence and keeps the state reached so far. -/
instance : Monad Prog where
  pure a := fun w => (Except.ok a, w)
  bind m k := fun w =>
    match m w with
    | (Except.ok a, w1) => k a w1
    | (Except.error e, w1) => (Except.error e, w1)

/-- The expression `mg.Request`: reads the embedded request pointer. -/
def Prog.request : Prog (Option Request) :=
  fun w => (Except.ok w.Request, w)

/-- Dereferencing `mg.Request` to read one of its fields; panics on a nil pointer. -/
def Prog.field {α : Type} (g : Request → Except Panic α) : Prog α :=
  fun w =>
    match w.Request with
    | none => (Except.error Panic.nilPointerDereference, w)
    | some req => (g req, w)

/-- The expression `mg.Request.URL.Query()`: reads the URL through the request
and builds a fresh `url.Values`; panics on a nil URL. -/
def Prog.query : Prog Values :=
  Prog.field (fun req => URL.Query req.URL)

/-- The expression `mg.Request.PostForm`. -/
def Prog.postForm : Prog Values :=
  Prog.field (fun req => Except.ok req.PostForm)

/-- The expression `mg.Request.Form`. -/
def Prog.form : Prog Values :=
  Prog.field (fun req => Except.ok req.Form)

/-- The expression `mux.Vars(mg.Request)`. -/
def Prog.vars : Prog (GoMap String) :=
  Prog.field (fun req => Except.ok (mux.Vars req))

/-- The method `Get`, statement by statement, as a computation over the getter.
The source assigns only to its locals `v`, `ok` and `vs`; every access to the
getter is a read. -/
def MuxURLGetter.GetM (key : String) (f : StructField) : Prog String := do
  match (← Prog.request) with
  | none => return ""
  | some _ =>
    if StructTag.Get f.Tag "mux.param" != "" then
      -- QueryParams
      let (v, ok) := tryURLValues key (← Prog.query)
      if ok then
        return v
    if StructTag.Get f.Tag "mux.form" != "" then
      -- PostForm Values
      let (v, ok) := tryURLValues key (← Prog.postForm)
      if ok then
        return v
      -- Form Values
      let (v, ok) := tryURLValues key (← Prog.form)
      if ok then
        return v
    if StructTag.Get f.Tag "mux.path" != "" then
      let vs ← Prog.vars
      return GoMap.index "" vs key
    return ""

/-- The outcome of one call of `Get` in state `w` and the state after it. -/
def MuxURLGetter.call (key : String) (f : StructField) (w : MuxURLGetter) :
    Except Panic String × MuxURLGetter :=
  MuxURLGetter.GetM key f w

/-- The state after a sequence of calls of `Get`, each with its own key and field. -/
def MuxURLGetter.afterCalls (calls : List (String × StructField)) (w : MuxURLGetter) :
    MuxURLGetter :=
  calls.foldl (fun s c => (MuxURLGetter.call c.1 c.2 s).2) w

/-! ## The populator and the wrapper -/

/-- The function `ParseMuxRequestToStruct`. The populator `tagconfig.Process`
belongs to another package; it is a parameter here, mapping a getter and a
container to the error it returns and the container it leaves behind. -/
def ParseMuxRequestToStruct {C E : Type} (Process : MuxURLGetter → C → E × C)
    (req : Option Request) (container : C) : E × C :=
  Process ⟨req⟩ container

/-- Splitting a character sequence at each comma; `acc` holds the current piece
in reverse. -/
def splitCommaChars : List Char → List Char → List String
  | [], acc => [String.mk acc.reverse]
  | c :: cs, acc =>
    if c = ',' then String.mk acc.reverse :: splitCommaChars cs []
    else splitCommaChars cs (c :: acc)

/-- Modelled from the spec: the string-to-list conversion of the populator
(`tagconfig.Process`, whose code is not part of the sources), "splitting on
commas". -/
def splitOnCommas (s : String) : List String :=
  splitCommaChars s.data []

/-- Modelled from the spec: the occurrences of the key that the populator
(`tagconfig.Process`, whose code is not part of the sources) finds in the query
store "by its own means, not via the Resolver" (spec, section 8, scenario D): the
values the query store holds under `key` when the field declares the query
source and the request has a URL, none otherwise. -/
def queryOccurrences (mg : MuxURLGetter) (key : String) (f : StructField) : List String :=
  if StructTag.Get f.Tag "mux.param" = "" then []
  else
    match mg.Request with
    | none => []
    | some req =>
      match req.URL with
      | none => []
      | some u => GoMap.index [] (GoMap.entries u.query) key

/-- Modelled from the spec: the string-to-list conversion of the populator
(`tagconfig.Process`, whose code is not part of the sources), "splitting on
commas or aggregating repeated query occurrences" (spec, section 6): repeated
occurrences are combined in order, otherwise the resolved string is split on
commas. -/
def stringToList (occurrences : List String) (resolved : String) : List String :=
  match occurrences with
  | v1 :: v2 :: rest => v1 :: v2 :: rest
  | _ => splitOnCommas resolved

/-- Modelled from the spec: what the populator (`tagconfig.Process`, whose code is
not part of the sources) assigns to a `[]string` field: it takes the field's key
from the tag named by `TagName`, calls `Get` with it, and assigns the returned
string after the string-to-list conversion. -/
def populateStringSlice (mg : MuxURLGetter) (f : StructField) :
    Except Panic (List String) :=
  (mg.Get (StructTag.Get f.Tag mg.TagName) f).map
    (stringToList (queryOccurrences mg (StructTag.Get f.Tag mg.TagName) f))

/-- Modelled from the spec: whether a field carries the resolution marker of the
populator (`tagconfig.Process`, whose code is not part of the sources), that is,
whether its struct tag has an entry under the given tag name. -/
def carriesTag (tagName : String) (f : StructField) : Bool :=
  (f.Tag.lookup tagName).isSome

/-- Modelled from the spec: the calls of `Get` the populator (`tagconfig.Process`,
whose code is not part of the sources) makes for the fields of a destination
record (spec, section 6): one call for every field carrying the tag that
`TagName` names, in field order, with the value of that tag as the key. -/
def populatorCalls (mg : MuxURLGetter) (fields : List StructField) :
    List (String × StructField) :=
  (fields.filter (carriesTag mg.TagName)).map
    (fun f => (StructTag.Get f.Tag mg.TagName, f))

/-- The field source declaration of the specification (section 3): three
independent flags. -/
structure Declaration where
  query : Bool
  form : Bool
  path : Bool
  deriving DecidableEq, Repr

/-- The precedence algorithm of the specification (section 4.1) over the four
stores of a request context and a declaration given as three flags: the query
value when the query flag is set and the value is non-empty; else the
submitted-body value, then the general form value, when the form flag is set and
the value is non-empty; else the raw path-variable lookup when the path flag is
set; else the empty string. -/
def resolve (q pf fm : Values) (vars : GoMap String) (key : String) (d : Declaration) :
    String :=
  if d.query = true ∧ Values.Get q key ≠ "" then Values.Get q key
  else if d.form = true ∧ Values.Get pf key ≠ "" then Values.Get pf key
  else if d.form = true ∧ Values.Get fm key ≠ "" then Values.Get fm key
  else if d.path = true then GoMap.index "" vars key
  else ""

/-! ## Unfolding `Get` -/

theorem tryURLValues_fst (key : String) (vs : Values) :
    (tryURLValues key vs).1 = Values.Get vs key := rfl

theorem tryURLValues_snd (key : String) (vs : Values) :
    (tryURLValues key vs).2 = true ↔ Values.Get vs key ≠ "" := by
  simp [tryURLValues]

theorem Get_nil (key : String) (f : StructField) :
    MuxURLGetter.Get ⟨none⟩ key f = Except.ok "" := rfl

theorem Get_some (req : Request) (key : String) (f : StructField) :
    MuxURLGetter.Get ⟨some req⟩ key f =
      (if StructTag.Get f.Tag "mux.param" = "" then Except.ok (formResult req key f)
       else match URL.Query req.URL with
        | Except.error e => Except.error e
        | Except.ok q =>
          if Values.Get q key = "" then Except.ok (formResult req key f)
          else Except.ok (Values.Get q key)) := by
  unfold MuxURLGetter.Get
  simp only [tryURLValues, URL.Query, pure, Except.pure, bind, Except.bind, formResult, pathResult]
  cases hu : req.URL <;> by_cases h1 : StructTag.Get f.Tag "mux.param" = "" <;>
    by_cases h2 : StructTag.Get f.Tag "mux.form" = "" <;>
    by_cases h3 : StructTag.Get f.Tag "mux.path" = "" <;>
    by_cases h4 : Values.Get req.PostForm key = "" <;>
    by_cases h5 : Values.Get req.Form key = "" <;>
    simp [h1, h2, h3, h4, h5]

/-- With `mux.param` unset the query store is never consulted. -/
theorem Get_some_of_param_unset (req : Request) (key : String) (f : StructField)
    (hp : StructTag.Get f.Tag "mux.param" = "") :
    MuxURLGetter.Get ⟨some req⟩ key f = Except.ok (formResult req key f) := by
  rw [Get_some, if_pos hp]

/-- With `mux.param` set and a query store `q`, the query lookup decides. -/
theorem Get_some_of_query (req : Request) (q : Values) (key : String) (f : StructField)
    (hp : StructTag.Get f.Tag "mux.param" ≠ "") (hq : URL.Query req.URL = Except.ok q) :
    MuxURLGetter.Get ⟨some req⟩ key f =
      (if Values.Get q key = "" then Except.ok (formResult req key f)
       else Except.ok (Values.Get q key)) := by
  rw [Get_some, if_neg hp, hq]

/-- With `mux.param` set and a nil URL, `Get` panics. -/
theorem Get_some_of_nil_URL (req : Request) (key : String) (f : StructField)
    (hp : StructTag.Get f.Tag "mux.param" ≠ "") (hu : req.URL = none) :
    MuxURLGetter.Get ⟨some req⟩ key f = Except.error Panic.nilPointerDereference := by
  rw [Get_some, if_neg hp, hu]
  rfl

/-- The outcomes of `Get`: it panics exactly on a present request with a nil URL
and `mux.param` set, and returns a string otherwise. -/
theorem Get_panics_iff (mg : MuxURLGetter) (key : String) (f : StructField) :
    MuxURLGetter.Get mg key f = Except.error Panic.nilPointerDereference ↔
      ∃ req, mg.Request = some req ∧ StructTag.Get f.Tag "mux.param" ≠ "" ∧ req.URL = none := by
  obtain ⟨r⟩ := mg
  cases r with
  | none => simp [Get_nil]
  | some req =>
    by_cases hp : StructTag.Get f.Tag "mux.param" = ""
    · simp [Get_some_of_param_unset req key f hp, hp]
    · cases hu : req.URL with
      | none => simp [Get_some_of_nil_URL req key f hp hu, hp, hu]
      | some u =>
        have hq : URL.Query req.URL = Except.ok (GoMap.entries u.query) := by rw [hu]; rfl
        rw [Get_some_of_query req _ key f hp hq]
        by_cases hv : Values.Get (GoMap.entries u.query) key = "" <;> simp [hv, hu]

/-- Whenever `Get` does not panic it returns a string. -/
theorem Get_ok_of_URL (req : Request) (key : String) (f : StructField)
    (h : StructTag.Get f.Tag "mux.param" ≠ "" → req.URL ≠ none) :
    ∃ v, MuxURLGetter.Get ⟨some req⟩ key f = Except.ok v := by
  cases hg : MuxURLGetter.Get ⟨some req⟩ key f with
  | ok v => exact ⟨v, rfl⟩
  | error e =>
    cases e
    obtain ⟨r, hr, hp, hu⟩ := (Get_panics_iff _ key f).1 hg
    cases hr
    exact absurd hu (h hp)

/-! ## First non-empty wins -/

theorem firstNonEmpty_eq_empty_iff (l : List String) :
    firstNonEmpty l = "" ↔ ∀ x ∈ l, x = "" := by
  induction l with
  | nil => simp [firstNonEmpty]
  | cons x xs ih =>
    by_cases hx : x = ""
    · simp [firstNonEmpty, hx, ih]
    · simp [firstNonEmpty, hx]

/-- On a present request whose URL is set whenever `mux.param` is, `Get` returns
the first non-empty value among the declared lookups. -/
theorem Get_eq_firstNonEmpty (req : Request) (key : String) (f : StructField)
    (h : StructTag.Get f.Tag "mux.param" ≠ "" → req.URL ≠ none) :
    MuxURLGetter.Get ⟨some req⟩ key f =
      Except.ok (firstNonEmpty (declaredLookups req key f)) := by
  by_cases hp : StructTag.Get f.Tag "mux.param" = ""
  · rw [Get_some_of_param_unset req key f hp]
    by_cases h2 : StructTag.Get f.Tag "mux.form" = "" <;>
      by_cases h3 : StructTag.Get f.Tag "mux.path" = "" <;>
      by_cases h4 : Values.Get req.PostForm key = "" <;>
      by_cases h5 : Values.Get req.Form key = "" <;>
      by_cases h6 : GoMap.index "" (mux.Vars req) key = "" <;>
      simp [declaredLookups, firstNonEmpty, formResult, pathResult, hp, h2, h3, h4, h5, h6]
  · cases hu : req.URL with
    | none => exact absurd hu (h hp)
    | some u =>
      have hq : URL.Query req.URL = Except.ok (GoMap.entries u.query) := by rw [hu]; rfl
      rw [Get_some_of_query req _ key f hp hq]
      by_cases h1 : Values.Get (GoMap.entries u.query) key = "" <;>
        by_cases h2 : StructTag.Get f.Tag "mux.form" = "" <;>
        by_cases h3 : StructTag.Get f.Tag "mux.path" = "" <;>
        by_cases h4 : Values.Get req.PostForm key = "" <;>
        by_cases h5 : Values.Get req.Form key = "" <;>
        by_cases h6 : GoMap.index "" (mux.Vars req) key = "" <;>
        simp [declaredLookups, firstNonEmpty, formResult, pathResult,
          hp, hu, h1, h2, h3, h4, h5, h6]

/-! ## Single-value lookups -/

theorem Values_Get_of_index_cons (vs : Values) (key v : String) (rest : List String)
    (h : GoMap.index [] vs key = v :: rest) : Values.Get vs key = v := by
  simp [Values.Get, h]

theorem Values_Get_of_lookup_cons (es : List (String × List String)) (key v : String)
    (rest : List String) (h : es.lookup key = some (v :: rest)) :
    Values.Get (GoMap.entries es) key = v := by
  simp [Values.Get, GoMap.index, h]

theorem Values_Get_of_lookup_none (es : List (String × List String)) (key : String)
    (h : es.lookup key = none) : Values.Get (GoMap.entries es) key = "" := by
  simp [Values.Get, GoMap.index, h]

/-- The form and path blocks never read the URL. -/
theorem formResult_URL (u u' : Option URL) (pf fm : Values) (rv : GoMap String)
    (key : String) (f : StructField) :
    formResult ⟨u, pf, fm, rv⟩ key f = formResult ⟨u', pf, fm, rv⟩ key f := rfl

/-- The outcome of `Get` on a present request is determined by the flags, the
outcome of `URL.Query` and the four single-value lookups of `key`. -/
theorem Get_congr (req req' : Request) (key : String) (f : StructField)
    (hq : (URL.Query req.URL).map (fun q => Values.Get q key) =
      (URL.Query req'.URL).map (fun q => Values.Get q key))
    (hpf : Values.Get req.PostForm key = Values.Get req'.PostForm key)
    (hfm : Values.Get req.Form key = Values.Get req'.Form key)
    (hrv : GoMap.index "" (mux.Vars req) key = GoMap.index "" (mux.Vars req') key) :
    MuxURLGetter.Get ⟨some req⟩ key f = MuxURLGetter.Get ⟨some req'⟩ key f := by
  have hform : formResult req key f = formResult req' key f := by
    simp only [formResult, pathResult, hpf, hfm, hrv]
  rw [Get_some, Get_some, hform]
  by_cases hp : StructTag.Get f.Tag "mux.param" = ""
  · simp [hp]
  · simp only [if_neg hp]
    cases h1 : URL.Query req.URL <;> cases h2 : URL.Query req'.URL <;>
      simp_all [Except.map]

/-! ## Claims -/

/-- C1 (failing input). A present request whose URL is nil, whose general Form
holds "lord.nikon" under "handle", and a field tagged with both `mux.param` and
`mux.form`: the first non-empty value among the declared lookups is "lord.nikon",
yet `Get` does not return it, because evaluating `mg.Request.URL.Query()` panics
on the nil URL before any source is read. -/
theorem C1_nil_URL_breaks_first_non_empty :
    firstNonEmpty (declaredLookups
        ⟨none, GoMap.entries [], GoMap.entries [("handle", ["lord.nikon"])], GoMap.nil⟩
        "handle" ⟨[("mux.url", "handle"), ("mux.param", "true"), ("mux.form", "true")]⟩)
      = "lord.nikon" ∧
    MuxURLGetter.Get
        ⟨some ⟨none, GoMap.entries [], GoMap.entries [("handle", ["lord.nikon"])], GoMap.nil⟩⟩
        "handle" ⟨[("mux.url", "handle"), ("mux.param", "true"), ("mux.form", "true")]⟩
      = Except.error Panic.nilPointerDereference :=
  ⟨by decide, rfl⟩

/-- C2. Query precedence: when `mux.param` is set and the query store of a present
request holds a non-empty value for `key`, `Get` returns exactly that value,
whatever the other two flags are and whatever `PostForm`, `Form` and the path
variables hold. -/
theorem C2_query_precedence (req : Request) (q : Values) (key : String) (f : StructField)
    (hq : URL.Query req.URL = Except.ok q)
    (hv : Values.Get q key ≠ "")
    (hp : StructTag.Get f.Tag "mux.param" ≠ "") :
    MuxURLGetter.Get ⟨some req⟩ key f = Except.ok (Values.Get q key) := by
  rw [Get_some_of_query req q key f hp hq, if_neg hv]

/-- Witness for C2: query, PostForm, Form and path variables all hold a different
value for "rival" and all three flags are set; the query value wins. -/
theorem C2_query_precedence_witness :
    MuxURLGetter.Get
        ⟨some ⟨some ⟨[("rival", ["acid.burn"])]⟩, GoMap.entries [("rival", ["zero.cool"])],
          GoMap.entries [("rival", ["cereal.killer"])], GoMap.entries [("rival", "the.plague")]⟩⟩
        "rival" ⟨[("mux.url", "rival"), ("mux.param", "true"), ("mux.form", "true"),
          ("mux.path", "true")]⟩
      = Except.ok "acid.burn" :=
  C2_query_precedence
    ⟨some ⟨[("rival", ["acid.burn"])]⟩, GoMap.entries [("rival", ["zero.cool"])],
      GoMap.entries [("rival", ["cereal.killer"])], GoMap.entries [("rival", "the.plague")]⟩
    (GoMap.entries [("rival", ["acid.burn"])]) "rival"
    ⟨[("mux.url", "rival"), ("mux.param", "true"), ("mux.form", "true"), ("mux.path", "true")]⟩
    rfl (by decide) (by decide)

/-- C3. Form resolution: on a present request, when `mux.form` is set and either
`mux.param` is unset or the lookup of `key` in the query store came back empty,
`Get` returns the `PostForm` value if it is non-empty, otherwise the `Form` value
if it is non-empty, otherwise the path-variable lookup when `mux.path` is set and
the empty string when it is not. -/
theorem C3_form_resolution (req : Request) (key : String) (f : StructField)
    (hf : StructTag.Get f.Tag "mux.form" ≠ "")
    (hq : StructTag.Get f.Tag "mux.param" = "" ∨
      ∃ q, URL.Query req.URL = Except.ok q ∧ Values.Get q key = "") :
    MuxURLGetter.Get ⟨some req⟩ key f =
      Except.ok
        (if Values.Get req.PostForm key ≠ "" then Values.Get req.PostForm key
         else if Values.Get req.Form key ≠ "" then Values.Get req.Form key
         else if StructTag.Get f.Tag "mux.path" ≠ "" then GoMap.index "" (mux.Vars req) key
         else "") := by
  have hform : formResult req key f =
      (if Values.Get req.PostForm key ≠ "" then Values.Get req.PostForm key
       else if Values.Get req.Form key ≠ "" then Values.Get req.Form key
       else if StructTag.Get f.Tag "mux.path" ≠ "" then GoMap.index "" (mux.Vars req) key
       else "") := by
    by_cases h3 : StructTag.Get f.Tag "mux.path" = "" <;>
      by_cases h4 : Values.Get req.PostForm key = "" <;>
      by_cases h5 : Values.Get req.Form key = "" <;>
      simp [formResult, pathResult, hf, h3, h4, h5]
  rcases hq with hp | ⟨q, hq, hv⟩
  · rw [Get_some_of_param_unset req key f hp, hform]
  · by_cases hp : StructTag.Get f.Tag "mux.param" = ""
    · rw [Get_some_of_param_unset req key f hp, hform]
    · rw [Get_some_of_query req q key f hp hq, if_pos hv, hform]

/-- Witness for C3: the query value for "handle" is empty, PostForm and Form hold
different values; the PostForm value is returned. -/
theorem C3_form_resolution_witness :
    MuxURLGetter.Get
        ⟨some ⟨some ⟨[("handle", [""])]⟩, GoMap.entries [("handle", ["lord.nikon"])],
          GoMap.entries [("handle", ["the.plague"])], GoMap.entries [("handle", "joey")]⟩⟩
        "handle" ⟨[("mux.url", "handle"), ("mux.param", "true"), ("mux.form", "true"),
          ("mux.path", "true")]⟩
      = Except.ok "lord.nikon" :=
  C3_form_resolution
    ⟨some ⟨[("handle", [""])]⟩, GoMap.entries [("handle", ["lord.nikon"])],
      GoMap.entries [("handle", ["the.plague"])], GoMap.entries [("handle", "joey")]⟩
    "handle"
    ⟨[("mux.url", "handle"), ("mux.param", "true"), ("mux.form", "true"), ("mux.path", "true")]⟩
    (by decide) (Or.inr ⟨GoMap.entries [("handle", [""])], rfl, by decide⟩)

/-- C4. Path only: on a present request, when `mux.path` is the only flag set,
`Get` returns exactly `mux.Vars(req)[key]`; that is the empty string when the
router attached no variables at all or none under `key`; and the result does not
depend on the URL, `PostForm` or `Form` of the request. -/
theorem C4_path_only (req : Request) (key : String) (f : StructField)
    (hp : StructTag.Get f.Tag "mux.param" = "")
    (hf : StructTag.Get f.Tag "mux.form" = "")
    (hpath : StructTag.Get f.Tag "mux.path" ≠ "") :
    MuxURLGetter.Get ⟨some req⟩ key f = Except.ok (GoMap.index "" (mux.Vars req) key) ∧
    (mux.Vars req = GoMap.nil → MuxURLGetter.Get ⟨some req⟩ key f = Except.ok "") ∧
    (∀ es, mux.Vars req = GoMap.entries es → es.lookup key = none →
      MuxURLGetter.Get ⟨some req⟩ key f = Except.ok "") ∧
    (∀ u pf fm, MuxURLGetter.Get ⟨some ⟨u, pf, fm, req.routeVars⟩⟩ key f =
      MuxURLGetter.Get ⟨some req⟩ key f) := by
  have hget : ∀ r : Request,
      MuxURLGetter.Get ⟨some r⟩ key f = Except.ok (GoMap.index "" (mux.Vars r) key) := by
    intro r
    rw [Get_some_of_param_unset r key f hp]
    simp [formResult, pathResult, hf, hpath]
  refine ⟨hget req, ?_, ?_, ?_⟩
  · intro hnil
    rw [hget req, hnil]
    rfl
  · intro es hes hnone
    rw [hget req, hes]
    simp [GoMap.index, hnone]
  · intro u pf fm
    rw [hget req, hget]
    rfl

/-- Witness for C4: only `mux.path` is set; the route variable is returned although
the query, PostForm and Form hold other values for "type". -/
theorem C4_path_only_witness :
    MuxURLGetter.Get
        ⟨some ⟨some ⟨[("type", ["crt"])]⟩, GoMap.entries [("type", ["lcd"])],
          GoMap.entries [("type", ["plasma"])], GoMap.entries [("type", "activeMatrix")]⟩⟩
        "type" ⟨[("mux.url", "type"), ("mux.path", "true")]⟩
      = Except.ok "activeMatrix" :=
  (C4_path_only
    ⟨some ⟨[("type", ["crt"])]⟩, GoMap.entries [("type", ["lcd"])],
      GoMap.entries [("type", ["plasma"])], GoMap.entries [("type", "activeMatrix")]⟩
    "type" ⟨[("mux.url", "type"), ("mux.path", "true")]⟩
    (by decide) (by decide) (by decide)).1

/-- C5. No flags, no value: when none of `mux.param`, `mux.form`, `mux.path` is
set, `Get` returns the empty string for every getter (request absent or present,
stores nil or filled) and every key. -/
theorem C5_no_flags_no_value (mg : MuxURLGetter) (key : String) (f : StructField)
    (hp : StructTag.Get f.Tag "mux.param" = "")
    (hf : StructTag.Get f.Tag "mux.form" = "")
    (hpath : StructTag.Get f.Tag "mux.path" = "") :
    MuxURLGetter.Get mg key f = Except.ok "" := by
  obtain ⟨r⟩ := mg
  cases r with
  | none => exact Get_nil key f
  | some req =>
    rw [Get_some_of_param_unset req key f hp]
    simp [formResult, pathResult, hf, hpath]

/-- Witness for C5: every store holds a value for "handle", the field carries only
`mux.url`; the result is empty. -/
theorem C5_no_flags_no_value_witness :
    MuxURLGetter.Get
        ⟨some ⟨some ⟨[("handle", ["crash.override"])]⟩, GoMap.entries [("handle", ["lord.nikon"])],
          GoMap.entries [("handle", ["the.plague"])], GoMap.entries [("handle", "joey")]⟩⟩
        "handle" ⟨[("mux.url", "handle")]⟩
      = Except.ok "" :=
  C5_no_flags_no_value _ "handle" ⟨[("mux.url", "handle")]⟩ (by decide) (by decide) (by decide)

/-- C6. Absent request: a `MuxURLGetter` whose embedded request is nil makes `Get`
return the empty string, without a panic, for every key and every declaration. -/
theorem C6_absent_request (key : String) (f : StructField) :
    MuxURLGetter.Get ⟨none⟩ key f = Except.ok "" :=
  Get_nil key f

/-- C7 (failing input). A present request whose URL is nil (its `PostForm`, `Form`
and route variables being nil as well) and a field tagged `mux.param`: `Get`
does not return a string, it panics on `mg.Request.URL.Query()`. -/
theorem C7_nil_URL_panics :
    MuxURLGetter.Get ⟨some ⟨none, GoMap.nil, GoMap.nil, GoMap.nil⟩⟩ "rival"
        ⟨[("mux.url", "rival"), ("mux.param", "true")]⟩
      = Except.error Panic.nilPointerDereference ∧
    ¬ ∃ v, MuxURLGetter.Get ⟨some ⟨none, GoMap.nil, GoMap.nil, GoMap.nil⟩⟩ "rival"
        ⟨[("mux.url", "rival"), ("mux.param", "true")]⟩ = Except.ok v := by
  have h : MuxURLGetter.Get ⟨some ⟨none, GoMap.nil, GoMap.nil, GoMap.nil⟩⟩ "rival"
      ⟨[("mux.url", "rival"), ("mux.param", "true")]⟩
      = Except.error Panic.nilPointerDereference := rfl
  refine ⟨h, ?_⟩
  rintro ⟨v, hv⟩
  rw [h] at hv
  cases hv

/-- C8 (counterexample). The general Form holds "zero.cool" under the empty key
and the field is tagged `mux.form`: `Get` called with the empty key returns
"zero.cool", not the empty string. -/
theorem C8_empty_key_counterexample :
    MuxURLGetter.Get
        ⟨some ⟨some ⟨[]⟩, GoMap.entries [], GoMap.entries [("", ["zero.cool"])], GoMap.nil⟩⟩
        "" ⟨[("mux.url", ""), ("mux.form", "true")]⟩
      = Except.ok "zero.cool" ∧
    MuxURLGetter.Get
        ⟨some ⟨some ⟨[]⟩, GoMap.entries [], GoMap.entries [("", ["zero.cool"])], GoMap.nil⟩⟩
        "" ⟨[("mux.url", ""), ("mux.form", "true")]⟩
      ≠ Except.ok "" := by
  have h : MuxURLGetter.Get
      ⟨some ⟨some ⟨[]⟩, GoMap.entries [], GoMap.entries [("", ["zero.cool"])], GoMap.nil⟩⟩
      "" ⟨[("mux.url", ""), ("mux.form", "true")]⟩ = Except.ok "zero.cool" := rfl
  refine ⟨h, ?_⟩
  rw [h]
  intro hne
  injection hne with hs
  exact absurd hs (by decide)

/-- C8 (amended). The empty key is looked up like any other key: `Get` called
with the empty key returns the empty string whenever, on a present request, no
declared source holds a non-empty value under the empty key (the query store
being there when `mux.param` is set); on an absent request it always does. -/
theorem C8_empty_key_amended (mg : MuxURLGetter) (f : StructField)
    (h : ∀ req, mg.Request = some req →
      (StructTag.Get f.Tag "mux.param" ≠ "" →
        ∃ q, URL.Query req.URL = Except.ok q ∧ Values.Get q "" = "") ∧
      (StructTag.Get f.Tag "mux.form" ≠ "" →
        Values.Get req.PostForm "" = "" ∧ Values.Get req.Form "" = "") ∧
      (StructTag.Get f.Tag "mux.path" ≠ "" → GoMap.index "" (mux.Vars req) "" = "")) :
    MuxURLGetter.Get mg "" f = Except.ok "" := by
  obtain ⟨r⟩ := mg
  cases r with
  | none => exact Get_nil "" f
  | some req =>
    obtain ⟨hq, hform, hpath⟩ := h req rfl
    have hfr : formResult req "" f = "" := by
      by_cases h2 : StructTag.Get f.Tag "mux.form" = "" <;>
        by_cases h3 : StructTag.Get f.Tag "mux.path" = "" <;>
        simp_all [formResult, pathResult]
    by_cases hp : StructTag.Get f.Tag "mux.param" = ""
    · rw [Get_some_of_param_unset req "" f hp, hfr]
    · obtain ⟨q, hq1, hq2⟩ := hq hp
      rw [Get_some_of_query req q "" f hp hq1, if_pos hq2, hfr]

/-- Witness for C8 (amended): all three flags set, no store has an entry under the
empty key; the result is empty. -/
theorem C8_empty_key_amended_witness :
    MuxURLGetter.Get
        ⟨some ⟨some ⟨[("rival", ["acid.burn"])]⟩, GoMap.entries [("handle", ["lord.nikon"])],
          GoMap.nil, GoMap.entries [("type", "activeMatrix")]⟩⟩
        "" ⟨[("mux.url", ""), ("mux.param", "true"), ("mux.form", "true"), ("mux.path", "true")]⟩
      = Except.ok "" :=
  C8_empty_key_amended
    ⟨some ⟨some ⟨[("rival", ["acid.burn"])]⟩, GoMap.entries [("handle", ["lord.nikon"])],
      GoMap.nil, GoMap.entries [("type", "activeMatrix")]⟩⟩
    ⟨[("mux.url", ""), ("mux.param", "true"), ("mux.form", "true"), ("mux.path", "true")]⟩
    (fun req hreq => by
      cases hreq
      exact ⟨fun _ => ⟨GoMap.entries [("rival", ["acid.burn"])], rfl, by decide⟩,
        fun _ => ⟨by decide, by decide⟩, fun _ => by decide⟩)

/-- C9. Empty equals absent: for each of the four stores (query, `PostForm`,
`Form`, path variables), a request whose store holds `key` with an empty value
and the same request with a store that has no entry for `key` give the same
outcome of `Get`; and an empty query value for `key` does not stop `Get` from
going on to the form and path blocks. -/
theorem C9_empty_equals_absent (key : String) (f : StructField) (rest : List String)
    (held gone : List (String × List String)) (vheld vgone : List (String × String))
    (hheld : held.lookup key = some ("" :: rest)) (hgone : gone.lookup key = none)
    (hvheld : vheld.lookup key = some "") (hvgone : vgone.lookup key = none) :
    (∀ pf fm rv, MuxURLGetter.Get ⟨some ⟨some ⟨held⟩, pf, fm, rv⟩⟩ key f =
      MuxURLGetter.Get ⟨some ⟨some ⟨gone⟩, pf, fm, rv⟩⟩ key f) ∧
    (∀ u fm rv, MuxURLGetter.Get ⟨some ⟨u, GoMap.entries held, fm, rv⟩⟩ key f =
      MuxURLGetter.Get ⟨some ⟨u, GoMap.entries gone, fm, rv⟩⟩ key f) ∧
    (∀ u pf rv, MuxURLGetter.Get ⟨some ⟨u, pf, GoMap.entries held, rv⟩⟩ key f =
      MuxURLGetter.Get ⟨some ⟨u, pf, GoMap.entries gone, rv⟩⟩ key f) ∧
    (∀ u pf fm, MuxURLGetter.Get ⟨some ⟨u, pf, fm, GoMap.entries vheld⟩⟩ key f =
      MuxURLGetter.Get ⟨some ⟨u, pf, fm, GoMap.entries vgone⟩⟩ key f) ∧
    (∀ pf fm rv, MuxURLGetter.Get ⟨some ⟨some ⟨held⟩, pf, fm, rv⟩⟩ key f =
      Except.ok (formResult ⟨some ⟨held⟩, pf, fm, rv⟩ key f)) := by
  have e1 : Values.Get (GoMap.entries held) key = "" :=
    Values_Get_of_lookup_cons held key "" rest hheld
  have e2 : Values.Get (GoMap.entries gone) key = "" :=
    Values_Get_of_lookup_none gone key hgone
  have e3 : GoMap.index "" (GoMap.entries vheld) key = "" := by
    simp [GoMap.index, hvheld]
  have e4 : GoMap.index "" (GoMap.entries vgone) key = "" := by
    simp [GoMap.index, hvgone]
  refine ⟨?_, ?_, ?_, ?_, ?_⟩
  · intro pf fm rv
    exact Get_congr _ _ key f (by simp [URL.Query, Except.map, e1, e2]) rfl rfl rfl
  · intro u fm rv
    exact Get_congr _ _ key f rfl (e1.trans e2.symm) rfl rfl
  · intro u pf rv
    exact Get_congr _ _ key f rfl rfl (e1.trans e2.symm) rfl
  · intro u pf fm
    exact Get_congr _ _ key f rfl rfl rfl (e3.trans e4.symm)
  · intro pf fm rv
    rw [Get_some]
    by_cases hp : StructTag.Get f.Tag "mux.param" = ""
    · simp [hp]
    · simp [hp, URL.Query, e1]

/-- Witness for C9: an empty query value for "handle" and no query entry at all
give the same outcome. -/
theorem C9_empty_equals_absent_witness :
    MuxURLGetter.Get
        ⟨some ⟨some ⟨[("handle", [""])]⟩, GoMap.entries [("handle", ["lord.nikon"])],
          GoMap.nil, GoMap.nil⟩⟩
        "handle" ⟨[("mux.url", "handle"), ("mux.param", "true"), ("mux.form", "true")]⟩
      = MuxURLGetter.Get
        ⟨some ⟨some ⟨[]⟩, GoMap.entries [("handle", ["lord.nikon"])], GoMap.nil, GoMap.nil⟩⟩
        "handle" ⟨[("mux.url", "handle"), ("mux.param", "true"), ("mux.form", "true")]⟩ :=
  (C9_empty_equals_absent "handle"
    ⟨[("mux.url", "handle"), ("mux.param", "true"), ("mux.form", "true")]⟩ []
    [("handle", [""])] [] [("handle", "")] [] (by decide) (by decide) (by decide) (by decide)).1
    (GoMap.entries [("handle", ["lord.nikon"])]) GoMap.nil GoMap.nil

/-- C10. Scalar in, scalar out: when the store a value is taken from holds, under
`key`, a non-empty list of values whose first value `v` is non-empty, `Get`
returns exactly `v`. This holds for the query store (when `mux.param` is set),
for `PostForm` (when `mux.form` is set and the query lookup was not made or came
back empty) and for `Form` (when, in addition, the `PostForm` lookup came back
empty). -/
theorem C10_first_value_unmodified (req : Request) (key v : String) (rest : List String)
    (f : StructField) (hv : v ≠ "") :
    (∀ q, StructTag.Get f.Tag "mux.param" ≠ "" → URL.Query req.URL = Except.ok q →
      GoMap.index [] q key = v :: rest →
      MuxURLGetter.Get ⟨some req⟩ key f = Except.ok v) ∧
    (StructTag.Get f.Tag "mux.form" ≠ "" →
      (StructTag.Get f.Tag "mux.param" = "" ∨
        ∃ q, URL.Query req.URL = Except.ok q ∧ Values.Get q key = "") →
      GoMap.index [] req.PostForm key = v :: rest →
      MuxURLGetter.Get ⟨some req⟩ key f = Except.ok v) ∧
    (StructTag.Get f.Tag "mux.form" ≠ "" →
      (StructTag.Get f.Tag "mux.param" = "" ∨
        ∃ q, URL.Query req.URL = Except.ok q ∧ Values.Get q key = "") →
      Values.Get req.PostForm key = "" →
      GoMap.index [] req.Form key = v :: rest →
      MuxURLGetter.Get ⟨some req⟩ key f = Except.ok v) := by
  refine ⟨?_, ?_, ?_⟩
  · intro q hp hq hidx
    have hval : Values.Get q key = v := Values_Get_of_index_cons q key v rest hidx
    rw [Get_some_of_query req q key f hp hq, hval, if_neg hv]
  · intro hf hq hidx
    have hval : Values.Get req.PostForm key = v :=
      Values_Get_of_index_cons req.PostForm key v rest hidx
    have hform : formResult req key f = v := by
      simp [formResult, hf, hval, hv]
    rcases hq with hp | ⟨q, hq, hempty⟩
    · rw [Get_some_of_param_unset req key f hp, hform]
    · by_cases hp : StructTag.Get f.Tag "mux.param" = ""
      · rw [Get_some_of_param_unset req key f hp, hform]
      · rw [Get_some_of_query req q key f hp hq, if_pos hempty, hform]
  · intro hf hq hpf hidx
    have hval : Values.Get req.Form key = v :=
      Values_Get_of_index_cons req.Form key v rest hidx
    have hform : formResult req key f = v := by
      simp [formResult, hf, hpf, hval, hv]
    rcases hq with hp | ⟨q, hq, hempty⟩
    · rw [Get_some_of_param_unset req key f hp, hform]
    · by_cases hp : StructTag.Get f.Tag "mux.param" = ""
      · rw [Get_some_of_param_unset req key f hp, hform]
      · rw [Get_some_of_query req q key f hp hq, if_pos hempty, hform]

/-- Witness for C10: the comma-joined value "slice,bits" comes back whole, and of
the two occurrences "slice", "bits" the first comes back. -/
theorem C10_first_value_unmodified_witness :
    MuxURLGetter.Get
        ⟨some ⟨some ⟨[("bacon", ["slice,bits"])]⟩, GoMap.entries [], GoMap.entries [], GoMap.nil⟩⟩
        "bacon" ⟨[("mux.url", "bacon"), ("mux.param", "true")]⟩
      = Except.ok "slice,bits" ∧
    MuxURLGetter.Get
        ⟨some ⟨some ⟨[("bacon", ["slice", "bits"])]⟩, GoMap.entries [], GoMap.entries [],
          GoMap.nil⟩⟩
        "bacon" ⟨[("mux.url", "bacon"), ("mux.param", "true")]⟩
      = Except.ok "slice" :=
  ⟨(C10_first_value_unmodified
      ⟨some ⟨[("bacon", ["slice,bits"])]⟩, GoMap.entries [], GoMap.entries [], GoMap.nil⟩
      "bacon" "slice,bits" [] ⟨[("mux.url", "bacon"), ("mux.param", "true")]⟩ (by decide)).1
      (GoMap.entries [("bacon", ["slice,bits"])]) (by decide) rfl (by decide),
   (C10_first_value_unmodified
      ⟨some ⟨[("bacon", ["slice", "bits"])]⟩, GoMap.entries [], GoMap.entries [], GoMap.nil⟩
      "bacon" "slice" ["bits"] ⟨[("mux.url", "bacon"), ("mux.param", "true")]⟩ (by decide)).1
      (GoMap.entries [("bacon", ["slice", "bits"])]) (by decide) rfl (by decide)⟩


/-! ## Frame and non-interference lemmas -/

/-- A call of `Get` yields the outcome of `Get` and leaves the state as it was. -/
theorem call_eq (w : MuxURLGetter) (key : String) (f : StructField) :
    MuxURLGetter.call key f w = (w.Get key f, w) := by
  obtain ⟨r⟩ := w
  cases r with
  | none => rfl
  | some req =>
    rw [Get_some]
    unfold MuxURLGetter.call MuxURLGetter.GetM
    simp only [bind, pure, Prog.request, Prog.query, Prog.postForm, Prog.form, Prog.vars,
      Prog.field, tryURLValues, formResult, pathResult]
    cases hq : URL.Query req.URL with
    | error e =>
      by_cases h1 : StructTag.Get f.Tag "mux.param" = "" <;>
        by_cases h2 : StructTag.Get f.Tag "mux.form" = "" <;>
        by_cases h3 : StructTag.Get f.Tag "mux.path" = "" <;>
        by_cases h4 : Values.Get req.PostForm key = "" <;>
        by_cases h5 : Values.Get req.Form key = "" <;>
        simp [hq, h1, h2, h3, h4, h5]
    | ok q =>
      by_cases h0 : Values.Get q key = "" <;>
        by_cases h1 : StructTag.Get f.Tag "mux.param" = "" <;>
        by_cases h2 : StructTag.Get f.Tag "mux.form" = "" <;>
        by_cases h3 : StructTag.Get f.Tag "mux.path" = "" <;>
        by_cases h4 : Values.Get req.PostForm key = "" <;>
        by_cases h5 : Values.Get req.Form key = "" <;>
        simp [hq, h0, h1, h2, h3, h4, h5]

theorem afterCalls_eq (calls : List (String × StructField)) (w : MuxURLGetter) :
    MuxURLGetter.afterCalls calls w = w := by
  induction calls with
  | nil => rfl
  | cons c cs ih =>
    have hstep : MuxURLGetter.afterCalls (c :: cs) w =
        MuxURLGetter.afterCalls cs (MuxURLGetter.call c.1 c.2 w).2 := rfl
    rw [hstep, call_eq, ih]

theorem Values_Get_of_index_eq (vs vs' : Values) (key : String)
    (h : GoMap.index [] vs key = GoMap.index [] vs' key) :
    Values.Get vs key = Values.Get vs' key := by
  unfold Values.Get
  rw [h]

theorem query_Get_of_index_eq (u u' : Option URL) (key : String)
    (h : (URL.Query u).map (fun q => GoMap.index [] q key) =
      (URL.Query u').map (fun q => GoMap.index [] q key)) :
    (URL.Query u).map (fun q => Values.Get q key) =
      (URL.Query u').map (fun q => Values.Get q key) := by
  cases h1 : URL.Query u <;> cases h2 : URL.Query u' <;>
    simp_all [Except.map, Values.Get]

/-- The outcome of `Get` on a present request is determined by the flags and by
the lookups of `key` in the declared sources only. -/
theorem Get_congr_declared (req req' : Request) (key : String) (f : StructField)
    (hq : StructTag.Get f.Tag "mux.param" ≠ "" →
      (URL.Query req.URL).map (fun q => Values.Get q key) =
        (URL.Query req'.URL).map (fun q => Values.Get q key))
    (hform : StructTag.Get f.Tag "mux.form" ≠ "" →
      Values.Get req.PostForm key = Values.Get req'.PostForm key ∧
      Values.Get req.Form key = Values.Get req'.Form key)
    (hpath : StructTag.Get f.Tag "mux.path" ≠ "" →
      GoMap.index "" (mux.Vars req) key = GoMap.index "" (mux.Vars req') key) :
    MuxURLGetter.Get ⟨some req⟩ key f = MuxURLGetter.Get ⟨some req'⟩ key f := by
  have hpr : pathResult req key f = pathResult req' key f := by
    by_cases h3 : StructTag.Get f.Tag "mux.path" = ""
    · simp [pathResult, h3]
    · simp [pathResult, h3, hpath h3]
  have hfr : formResult req key f = formResult req' key f := by
    by_cases h2 : StructTag.Get f.Tag "mux.form" = ""
    · simp [formResult, h2, hpr]
    · obtain ⟨e1, e2⟩ := hform h2
      simp [formResult, h2, hpr, e1, e2]
  rw [Get_some, Get_some, hfr]
  by_cases hp : StructTag.Get f.Tag "mux.param" = ""
  · simp [hp]
  · have hq1 := hq hp
    simp only [if_neg hp]
    cases h1 : URL.Query req.URL <;> cases h2 : URL.Query req'.URL <;>
      simp_all [Except.map]

/-! ## Claims on the populator, purity and the wrapper -/

/-- C11. Repeated query occurrences populate a slice: for a field tagged
`mux.url` with `key` and with `mux.param` set, and a request whose query store
holds several occurrences `v1, v2, ...` under `key`, the populator assigns the
list of all occurrences in order. The string `Get` returns is the first
occurrence (when it is non-empty); the further occurrences reach the field
through the populator's own aggregation. -/
theorem C11_repeated_occurrences (req : Request) (u : URL) (f : StructField)
    (key v1 v2 : String) (rest : List String)
    (hkey : StructTag.Get f.Tag "mux.url" = key)
    (hp : StructTag.Get f.Tag "mux.param" ≠ "")
    (hu : req.URL = some u)
    (hocc : GoMap.index [] (GoMap.entries u.query) key = v1 :: v2 :: rest) :
    populateStringSlice ⟨some req⟩ f = Except.ok (v1 :: v2 :: rest) ∧
    (v1 ≠ "" → MuxURLGetter.Get ⟨some req⟩ key f = Except.ok v1) := by
  have hq : URL.Query req.URL = Except.ok (GoMap.entries u.query) := by rw [hu]; rfl
  have hval : Values.Get (GoMap.entries u.query) key = v1 :=
    Values_Get_of_index_cons _ key v1 (v2 :: rest) hocc
  constructor
  · obtain ⟨v, hv⟩ := Get_ok_of_URL req key f (fun _ h => by rw [hu] at h; cases h)
    have hk : StructTag.Get f.Tag (MuxURLGetter.TagName ⟨some req⟩) = key := hkey
    have ho : queryOccurrences ⟨some req⟩ key f = v1 :: v2 :: rest := by
      simp [queryOccurrences, hp, hu, hocc]
    unfold populateStringSlice
    rw [hk, hv, ho]
    rfl
  · intro hne
    rw [Get_some_of_query req _ key f hp hq, hval, if_neg hne]

/-- Witness for C11: the request of `TestMuxMultipleURLParamToSliceGet`, whose
query carries `bacon=slice&bacon=bits`, and the field `Bacon`; the field
receives ["slice", "bits"] and `Get` returns "slice". -/
theorem C11_repeated_occurrences_witness :
    populateStringSlice
        ⟨some ⟨some ⟨[("bacon", ["slice", "bits"])]⟩, GoMap.entries [], GoMap.entries [],
          GoMap.nil⟩⟩
        ⟨[("mux.url", "bacon"), ("mux.param", "true")]⟩
      = Except.ok ["slice", "bits"] ∧
    MuxURLGetter.Get
        ⟨some ⟨some ⟨[("bacon", ["slice", "bits"])]⟩, GoMap.entries [], GoMap.entries [],
          GoMap.nil⟩⟩
        "bacon" ⟨[("mux.url", "bacon"), ("mux.param", "true")]⟩
      = Except.ok "slice" :=
  ⟨(C11_repeated_occurrences
      ⟨some ⟨[("bacon", ["slice", "bits"])]⟩, GoMap.entries [], GoMap.entries [], GoMap.nil⟩
      ⟨[("bacon", ["slice", "bits"])]⟩ ⟨[("mux.url", "bacon"), ("mux.param", "true")]⟩
      "bacon" "slice" "bits" [] (by decide) (by decide) rfl (by decide)).1,
   (C11_repeated_occurrences
      ⟨some ⟨[("bacon", ["slice", "bits"])]⟩, GoMap.entries [], GoMap.entries [], GoMap.nil⟩
      ⟨[("bacon", ["slice", "bits"])]⟩ ⟨[("mux.url", "bacon"), ("mux.param", "true")]⟩
      "bacon" "slice" "bits" [] (by decide) (by decide) rfl (by decide)).2 (by decide)⟩

/-- C12. Purity: a call of `Get` leaves the getter, and with it the query,
`PostForm`, `Form` and path-variable stores of its request, exactly as they
were; its outcome is the function `Get` of the state, the key and the field;
and after any sequence of calls made in between the state is still the same and
a further call with the same key and field has the same outcome. -/
theorem C12_purity (w : MuxURLGetter) (key : String) (f : StructField)
    (between : List (String × StructField)) :
    (MuxURLGetter.call key f w).2 = w ∧
    (MuxURLGetter.call key f w).1 = w.Get key f ∧
    MuxURLGetter.afterCalls between w = w ∧
    (MuxURLGetter.call key f (MuxURLGetter.afterCalls between w)).1 =
      (MuxURLGetter.call key f w).1 := by
  refine ⟨?_, ?_, afterCalls_eq between w, ?_⟩
  · rw [call_eq]
  · rw [call_eq]
  · rw [afterCalls_eq]

/-- C13. Wrapper equivalence: for every populator, every request (nil included)
and every container, `ParseMuxRequestToStruct` gives the error and the container
that the populator gives when run on a fresh `MuxURLGetter` wrapping the request
and the same container. -/
theorem C13_wrapper_equivalence {C E : Type} (Process : MuxURLGetter → C → E × C)
    (req : Option Request) (container : C) :
    ParseMuxRequestToStruct Process req container = Process ⟨req⟩ container ∧
    (ParseMuxRequestToStruct Process req container).1 = (Process ⟨req⟩ container).1 ∧
    (ParseMuxRequestToStruct Process req container).2 = (Process ⟨req⟩ container).2 :=
  ⟨rfl, rfl, rfl⟩

/-- C14. Resolution marker: `TagName` returns "mux.url" for every getter, with a
present or a nil request, so the populator calls `Get` for exactly the fields of
the destination record that carry the `mux.url` tag, each with the value of
that tag as the key. -/
theorem C14_tag_name (mg : MuxURLGetter) (fields : List StructField) :
    mg.TagName = "mux.url" ∧
    MuxURLGetter.TagName ⟨none⟩ = "mux.url" ∧
    (∀ (k : String) (f : StructField),
      (k, f) ∈ populatorCalls mg fields ↔
        f ∈ fields ∧ (f.Tag.lookup "mux.url").isSome = true ∧
          k = StructTag.Get f.Tag "mux.url") ∧
    populatorCalls mg
        [⟨[("mux.url", "handle"), ("mux.form", "true")]⟩, ⟨[("json", "note")]⟩,
          ⟨[("mux.param", "true")]⟩, ⟨[("mux.url", "type"), ("mux.path", "true")]⟩]
      = [("handle", ⟨[("mux.url", "handle"), ("mux.form", "true")]⟩),
          ("type", ⟨[("mux.url", "type"), ("mux.path", "true")]⟩)] := by
  refine ⟨rfl, rfl, ?_, ?_⟩
  · intro k f
    simp only [populatorCalls, MuxURLGetter.TagName, carriesTag, List.mem_map, List.mem_filter,
      Prod.mk.injEq]
    constructor
    · rintro ⟨g, ⟨hg, hc⟩, hk, rfl⟩
      exact ⟨hg, hc, hk.symm⟩
    · rintro ⟨hf, hc, hk⟩
      exact ⟨f, ⟨hf, hc⟩, hk.symm, rfl⟩
  · rfl

/-! ## Claims on flags and non-interference -/

/-- C15. Flag truthiness: a source flag counts as set exactly when its tag
(`mux.param`, `mux.form`, `mux.path`) has a non-empty value. On a present request
`Get` returns what the precedence algorithm of the specification returns for
the declaration whose three flags are the non-emptiness of the three tags; the
tag values are not read in any other way, so two fields whose tags are empty in
the same places resolve identically for every getter and key, whatever the
non-empty values are, and a missing tag counts as an empty one. -/
theorem C15_flag_truthiness (f g : StructField)
    (hp : StructTag.Get f.Tag "mux.param" = "" ↔ StructTag.Get g.Tag "mux.param" = "")
    (hf : StructTag.Get f.Tag "mux.form" = "" ↔ StructTag.Get g.Tag "mux.form" = "")
    (hpath : StructTag.Get f.Tag "mux.path" = "" ↔ StructTag.Get g.Tag "mux.path" = "")
    (mg : MuxURLGetter) (key : String) :
    mg.Get key f = mg.Get key g ∧
    (∀ (req : Request) (q : Values), mg.Request = some req →
      (StructTag.Get f.Tag "mux.param" ≠ "" → URL.Query req.URL = Except.ok q) →
      mg.Get key f =
        Except.ok (resolve q req.PostForm req.Form (mux.Vars req) key
          ⟨StructTag.Get f.Tag "mux.param" != "", StructTag.Get f.Tag "mux.form" != "",
            StructTag.Get f.Tag "mux.path" != ""⟩)) := by
  constructor
  · obtain ⟨r⟩ := mg
    cases r with
    | none => rw [Get_nil, Get_nil]
    | some req =>
      have hpr : pathResult req key f = pathResult req key g := by
        by_cases h3 : StructTag.Get f.Tag "mux.path" = ""
        · simp [pathResult, h3, hpath.1 h3]
        · have h3g : ¬ StructTag.Get g.Tag "mux.path" = "" := fun h => h3 (hpath.2 h)
          simp [pathResult, h3, h3g]
      have hfr : formResult req key f = formResult req key g := by
        by_cases h2 : StructTag.Get f.Tag "mux.form" = ""
        · simp [formResult, h2, hf.1 h2, hpr]
        · have h2g : ¬ StructTag.Get g.Tag "mux.form" = "" := fun h => h2 (hf.2 h)
          simp [formResult, h2, h2g, hpr]
      rw [Get_some, Get_some, hfr]
      by_cases h1 : StructTag.Get f.Tag "mux.param" = ""
      · simp [h1, hp.1 h1]
      · have h1g : ¬ StructTag.Get g.Tag "mux.param" = "" := fun h => h1 (hp.2 h)
        simp [h1, h1g]
  · intro req q hreq hq
    obtain ⟨r⟩ := mg
    cases hreq
    have hform : ∀ b : Bool, formResult req key f =
        resolve q req.PostForm req.Form (mux.Vars req) key
          ⟨b && false, StructTag.Get f.Tag "mux.form" != "",
            StructTag.Get f.Tag "mux.path" != ""⟩ := by
      intro b
      by_cases h2 : StructTag.Get f.Tag "mux.form" = "" <;>
        by_cases h3 : StructTag.Get f.Tag "mux.path" = "" <;>
        by_cases h4 : Values.Get req.PostForm key = "" <;>
        by_cases h5 : Values.Get req.Form key = "" <;>
        simp [formResult, pathResult, resolve, h2, h3, h4, h5]
    by_cases h1 : StructTag.Get f.Tag "mux.param" = ""
    · rw [Get_some_of_param_unset req key f h1, hform true]
      simp [h1]
    · rw [Get_some_of_query req q key f h1 (hq h1)]
      by_cases h0 : Values.Get q key = ""
      · rw [if_pos h0, hform true]
        simp [resolve, h0]
      · rw [if_neg h0]
        simp [resolve, h1, h0]

/-- Witness for C15: the query store holds "acid.burn" and `PostForm` holds
"zero.cool" under "rival". A field tagged `mux.param:"false"` resolves like one
tagged `mux.param:"true"`, and its flag counts as set: the query value is
returned. A field whose `mux.param` tag is present but empty resolves like one
without the tag, and its flag counts as unset: the form value is returned. -/
theorem C15_flag_truthiness_witness :
    (MuxURLGetter.Get
        ⟨some ⟨some ⟨[("rival", ["acid.burn"])]⟩, GoMap.entries [("rival", ["zero.cool"])],
          GoMap.entries [], GoMap.nil⟩⟩
        "rival" ⟨[("mux.url", "rival"), ("mux.param", "false"), ("mux.form", "0")]⟩
      = MuxURLGetter.Get
        ⟨some ⟨some ⟨[("rival", ["acid.burn"])]⟩, GoMap.entries [("rival", ["zero.cool"])],
          GoMap.entries [], GoMap.nil⟩⟩
        "rival" ⟨[("mux.url", "rival"), ("mux.param", "true"), ("mux.form", "true")]⟩) ∧
    (MuxURLGetter.Get
        ⟨some ⟨some ⟨[("rival", ["acid.burn"])]⟩, GoMap.entries [("rival", ["zero.cool"])],
          GoMap.entries [], GoMap.nil⟩⟩
        "rival" ⟨[("mux.url", "rival"), ("mux.param", ""), ("mux.form", "true")]⟩
      = MuxURLGetter.Get
        ⟨some ⟨some ⟨[("rival", ["acid.burn"])]⟩, GoMap.entries [("rival", ["zero.cool"])],
          GoMap.entries [], GoMap.nil⟩⟩
        "rival" ⟨[("mux.url", "rival"), ("mux.form", "true")]⟩) ∧
    (MuxURLGetter.Get
        ⟨some ⟨some ⟨[("rival", ["acid.burn"])]⟩, GoMap.entries [("rival", ["zero.cool"])],
          GoMap.entries [], GoMap.nil⟩⟩
        "rival" ⟨[("mux.url", "rival"), ("mux.param", "false"), ("mux.form", "0")]⟩
      = Except.ok "acid.burn") ∧
    (MuxURLGetter.Get
        ⟨some ⟨some ⟨[("rival", ["acid.burn"])]⟩, GoMap.entries [("rival", ["zero.cool"])],
          GoMap.entries [], GoMap.nil⟩⟩
        "rival" ⟨[("mux.url", "rival"), ("mux.param", ""), ("mux.form", "true")]⟩
      = Except.ok "zero.cool") :=
  ⟨(C15_flag_truthiness
      ⟨[("mux.url", "rival"), ("mux.param", "false"), ("mux.form", "0")]⟩
      ⟨[("mux.url", "rival"), ("mux.param", "true"), ("mux.form", "true")]⟩
      (by decide) (by decide) (by decide) _ "rival").1,
   (C15_flag_truthiness
      ⟨[("mux.url", "rival"), ("mux.param", ""), ("mux.form", "true")]⟩
      ⟨[("mux.url", "rival"), ("mux.form", "true")]⟩
      (by decide) (by decide) (by decide) _ "rival").1,
   ((C15_flag_truthiness
      ⟨[("mux.url", "rival"), ("mux.param", "false"), ("mux.form", "0")]⟩
      ⟨[("mux.url", "rival"), ("mux.param", "true"), ("mux.form", "true")]⟩
      (by decide) (by decide) (by decide)
      ⟨some ⟨some ⟨[("rival", ["acid.burn"])]⟩, GoMap.entries [("rival", ["zero.cool"])],
        GoMap.entries [], GoMap.nil⟩⟩ "rival").2
      _ (GoMap.entries [("rival", ["acid.burn"])]) rfl (fun _ => rfl)).trans rfl,
   ((C15_flag_truthiness
      ⟨[("mux.url", "rival"), ("mux.param", ""), ("mux.form", "true")]⟩
      ⟨[("mux.url", "rival"), ("mux.form", "true")]⟩
      (by decide) (by decide) (by decide)
      ⟨some ⟨some ⟨[("rival", ["acid.burn"])]⟩, GoMap.entries [("rival", ["zero.cool"])],
        GoMap.entries [], GoMap.nil⟩⟩ "rival").2
      _ (GoMap.entries [("rival", ["acid.burn"])]) rfl (fun _ => rfl)).trans rfl⟩

/-- C16. Undeclared sources do not interfere: two present requests that agree on
every store the field declares (the query store for `mux.param`, both being
obtained alike and holding the same values under every key; `PostForm` and
`Form` for `mux.form`; the path variables for `mux.path`) give the same outcome
of `Get`, however they differ on the stores the field does not declare. -/
theorem C16_undeclared_sources (req req' : Request) (key : String) (f : StructField)
    (hq : StructTag.Get f.Tag "mux.param" ≠ "" →
      ∀ k, (URL.Query req.URL).map (fun q => GoMap.index [] q k) =
        (URL.Query req'.URL).map (fun q => GoMap.index [] q k))
    (hform : StructTag.Get f.Tag "mux.form" ≠ "" →
      ∀ k, GoMap.index [] req.PostForm k = GoMap.index [] req'.PostForm k ∧
        GoMap.index [] req.Form k = GoMap.index [] req'.Form k)
    (hpath : StructTag.Get f.Tag "mux.path" ≠ "" →
      ∀ k, GoMap.index "" (mux.Vars req) k = GoMap.index "" (mux.Vars req') k) :
    MuxURLGetter.Get ⟨some req⟩ key f = MuxURLGetter.Get ⟨some req'⟩ key f :=
  Get_congr_declared req req' key f
    (fun h => query_Get_of_index_eq req.URL req'.URL key (hq h key))
    (fun h => ⟨Values_Get_of_index_eq _ _ key (hform h key).1,
      Values_Get_of_index_eq _ _ key (hform h key).2⟩)
    (fun h => hpath h key)

/-- Witness for C16: the field declares only `mux.form`; the two requests share
`PostForm` and `Form` and differ in the query and in the path variables. -/
theorem C16_undeclared_sources_witness :
    MuxURLGetter.Get
        ⟨some ⟨some ⟨[("handle", ["crash.override"])]⟩, GoMap.entries [],
          GoMap.entries [("handle", ["lord.nikon"])], GoMap.entries [("handle", "joey")]⟩⟩
        "handle" ⟨[("mux.url", "handle"), ("mux.form", "true")]⟩
      = MuxURLGetter.Get
        ⟨some ⟨none, GoMap.entries [], GoMap.entries [("handle", ["lord.nikon"])], GoMap.nil⟩⟩
        "handle" ⟨[("mux.url", "handle"), ("mux.form", "true")]⟩ :=
  C16_undeclared_sources
    ⟨some ⟨[("handle", ["crash.override"])]⟩, GoMap.entries [],
      GoMap.entries [("handle", ["lord.nikon"])], GoMap.entries [("handle", "joey")]⟩
    ⟨none, GoMap.entries [], GoMap.entries [("handle", ["lord.nikon"])], GoMap.nil⟩
    "handle" ⟨[("mux.url", "handle"), ("mux.form", "true")]⟩
    (fun h => absurd (by decide) h)
    (fun _ _ => ⟨rfl, rfl⟩)
    (fun h => absurd (by decide) h)

/-- C17. Only the requested key matters: two present requests whose stores agree
on the entry under `k` (the values the query store, `PostForm` and `Form` hold
under exactly `k`, and the path variable `k`) give the same outcome of `Get` for
`k`, however the stores differ under every other key. -/
theorem C17_only_requested_key (req req' : Request) (k : String) (f : StructField)
    (hq : (URL.Query req.URL).map (fun q => GoMap.index [] q k) =
      (URL.Query req'.URL).map (fun q => GoMap.index [] q k))
    (hpf : GoMap.index [] req.PostForm k = GoMap.index [] req'.PostForm k)
    (hfm : GoMap.index [] req.Form k = GoMap.index [] req'.Form k)
    (hrv : GoMap.index "" (mux.Vars req) k = GoMap.index "" (mux.Vars req') k) :
    MuxURLGetter.Get ⟨some req⟩ k f = MuxURLGetter.Get ⟨some req'⟩ k f :=
  Get_congr_declared req req' k f
    (fun _ => query_Get_of_index_eq req.URL req'.URL k hq)
    (fun _ => ⟨Values_Get_of_index_eq _ _ k hpf, Values_Get_of_index_eq _ _ k hfm⟩)
    (fun _ => hrv)

/-- Witness for C17: the two requests agree under "handle" and differ under
"Handle", "rival" and "type"; the lookup of "handle" has the same outcome. -/
theorem C17_only_requested_key_witness :
    MuxURLGetter.Get
        ⟨some ⟨some ⟨[("Handle", ["crash.override"])]⟩,
          GoMap.entries [("rival", ["acid.burn"])],
          GoMap.entries [("handle", ["lord.nikon"]), ("Handle", ["zero.cool"])],
          GoMap.entries [("type", "activeMatrix")]⟩⟩
        "handle" ⟨[("mux.url", "handle"), ("mux.param", "true"), ("mux.form", "true"),
          ("mux.path", "true")]⟩
      = MuxURLGetter.Get
        ⟨some ⟨some ⟨[]⟩, GoMap.nil, GoMap.entries [("handle", ["lord.nikon"])], GoMap.nil⟩⟩
        "handle" ⟨[("mux.url", "handle"), ("mux.param", "true"), ("mux.form", "true"),
          ("mux.path", "true")]⟩ :=
  C17_only_requested_key
    ⟨some ⟨[("Handle", ["crash.override"])]⟩,
      GoMap.entries [("rival", ["acid.burn"])],
      GoMap.entries [("handle", ["lord.nikon"]), ("Handle", ["zero.cool"])],
      GoMap.entries [("type", "activeMatrix")]⟩
    ⟨some ⟨[]⟩, GoMap.nil, GoMap.entries [("handle", ["lord.nikon"])], GoMap.nil⟩
    "handle"
    ⟨[("mux.url", "handle"), ("mux.param", "true"), ("mux.form", "true"), ("mux.path", "true")]⟩
    rfl rfl rfl rfl

end Muxtagconfig
